import Mathlib

/-!
Verification development for the grailbio/infra configuration engine.
Shallow embedding of config.go (and of the provider registry and
topological sorter, modelled from the specification where their source is
not available) together with theorems about the embedded definitions.
-/

deriving instance DecidableEq for Except

namespace Infra

/-- Model of Go reflect.Type, as used by the type matcher in config.go.
A type is a named primitive, an interface (identified by its method set),
a pointer, or a struct.  Struct fields carry (name, anonymous flag,
pkgPath, type); a nonempty pkgPath marks an unexported field, exactly as
in Go reflection.  Named types carry the method set reflection reports
for them, which is what interface assignability consults. -/
inductive GoType where
  | prim (name : String) (methods : List String)
  | iface (methods : List String)
  | ptr (elem : GoType)
  | strct (name : String) (fields : List (String × Bool × String × GoType))
      (methods : List String)

mutual

def GoType.decEq : (a b : GoType) → Decidable (a = b)
  | .prim n ms, .prim n₂ ms₂ =>
    if h1 : n = n₂ then
      if h2 : ms = ms₂ then isTrue (by rw [h1, h2])
      else isFalse (by intro h; cases h; exact h2 rfl)
    else isFalse (by intro h; cases h; exact h1 rfl)
  | .iface ms, .iface ms₂ =>
    if h2 : ms = ms₂ then isTrue (by rw [h2])
    else isFalse (by intro h; cases h; exact h2 rfl)
  | .ptr t, .ptr t₂ =>
    match GoType.decEq t t₂ with
    | isTrue h => isTrue (by rw [h])
    | isFalse h => isFalse (by intro hh; cases hh; exact h rfl)
  | .strct n fs ms, .strct n₂ fs₂ ms₂ =>
    if h1 : n = n₂ then
      match goFieldsDecEq fs fs₂ with
      | isTrue h3 =>
        if h2 : ms = ms₂ then isTrue (by rw [h1, h2, h3])
        else isFalse (by intro h; cases h; exact h2 rfl)
      | isFalse h3 => isFalse (by intro hh; cases hh; exact h3 rfl)
    else isFalse (by intro h; cases h; exact h1 rfl)
  | .prim _ _, .iface _ => isFalse (fun h => GoType.noConfusion h)
  | .prim _ _, .ptr _ => isFalse (fun h => GoType.noConfusion h)
  | .prim _ _, .strct _ _ _ => isFalse (fun h => GoType.noConfusion h)
  | .iface _, .prim _ _ => isFalse (fun h => GoType.noConfusion h)
  | .iface _, .ptr _ => isFalse (fun h => GoType.noConfusion h)
  | .iface _, .strct _ _ _ => isFalse (fun h => GoType.noConfusion h)
  | .ptr _, .prim _ _ => isFalse (fun h => GoType.noConfusion h)
  | .ptr _, .iface _ => isFalse (fun h => GoType.noConfusion h)
  | .ptr _, .strct _ _ _ => isFalse (fun h => GoType.noConfusion h)
  | .strct _ _ _, .prim _ _ => isFalse (fun h => GoType.noConfusion h)
  | .strct _ _ _, .iface _ => isFalse (fun h => GoType.noConfusion h)
  | .strct _ _ _, .ptr _ => isFalse (fun h => GoType.noConfusion h)

def goFieldsDecEq : (a b : List (String × Bool × String × GoType)) → Decidable (a = b)
  | [], [] => isTrue rfl
  | [], _ :: _ => isFalse (by intro h; cases h)
  | _ :: _, [] => isFalse (by intro h; cases h)
  | (n, a, p, t) :: rest, (n₂, a₂, p₂, t₂) :: rest₂ =>
    if h1 : n = n₂ then
      if h2 : a = a₂ then
        if h3 : p = p₂ then
          match GoType.decEq t t₂ with
          | isTrue h4 =>
            match goFieldsDecEq rest rest₂ with
            | isTrue h5 => isTrue (by rw [h1, h2, h3, h4, h5])
            | isFalse h5 => isFalse (by intro hh; cases hh; exact h5 rfl)
          | isFalse h4 => isFalse (by intro hh; cases hh; exact h4 rfl)
        else isFalse (by intro h; cases h; exact h3 rfl)
      else isFalse (by intro h; cases h; exact h2 rfl)
    else isFalse (by intro h; cases h; exact h1 rfl)

end

instance : DecidableEq GoType := GoType.decEq

/-- The method set of a type: interfaces and named types list their
methods; a pointer exposes the methods of its pointee (model of the Go
rule that the method set of *T contains the methods of T). -/
def methodSet : GoType → List String
  | .prim _ ms => ms
  | .iface ms => ms
  | .ptr t => methodSet t
  | .strct _ _ ms => ms

/-- Model of reflect.Type.AssignableTo: identical types are assignable,
and a type is assignable to an interface whose methods it all
implements. -/
def assignableTo (src dst : GoType) : Bool :=
  src == dst ||
    (match dst with
     | .iface ms => ms.all (fun m => (methodSet src).contains m)
     | _ => false)

/-- Rendering of a type for error messages (Go prints reflect.Type with
%s or %v as its name, pointer types with a leading star). -/
def typeName : GoType → String
  | .prim n _ => n
  | .iface _ => "interface"
  | .ptr t => "*" ++ typeName t
  | .strct n _ _ => n

/-- The pointer-stripping loop of assign in config.go:
`for ptyp.Kind() == reflect.Ptr { ptyp = ptyp.Elem() }`. -/
def stripPtr : GoType → GoType
  | .ptr t => stripPtr t
  | t => t

/-- The field loop of assign in config.go: walk the struct fields in
declaration order, skipping non-embedded (`!f.Anonymous`) and unexported
(`f.PkgPath != ""`) fields, and return the first embedded exported field
whose type is assignable to dst. -/
def scanFields (dst : GoType) : List (String × Bool × String × GoType) → String × Bool
  | [] => ("", false)
  | (name, anon, pkgPath, typ) :: rest =>
    if !anon || pkgPath != "" then scanFields dst rest
    else if assignableTo typ dst then (name, true)
    else scanFields dst rest

/-- assign from config.go: a direct assignability test, then one level of
embedded-field promotion through pointer indirections. -/
def assign (src dst : GoType) : String × Bool :=
  if assignableTo src dst then ("", true)
  else
    match stripPtr src with
    | .strct _ fs _ => scanFields dst fs
    | _ => ("", false)

/-- Rendering of a list of types, modelling how fmt prints a
[]reflect.Type with %v. -/
def typeListName (ts : List GoType) : String :=
  "[" ++ String.intercalate " " (ts.map typeName) ++ "]"

/-- assignUnique from config.go: collect the candidate slot types that
match src under assign (in candidate order), then switch on how many
matched. -/
def assignUnique (src : GoType) (dsts : List GoType) : Except String GoType :=
  let hits := dsts.filter (fun dst => (assign src dst).2)
  match hits with
  | [] => .error ("no providers for type " ++ typeName src)
  | [t] => .ok t
  | _ =>
    .error ("multiple providers for type " ++ typeName src ++ ": " ++ typeListName hits)

/-- The zero-value collapse in Schema.types: a pointer to an interface
stands for the pointee interface type. -/
def collapse (t : GoType) : GoType :=
  match t with
  | .ptr (.iface ms) => .iface ms
  | _ => t

/-- Reading an association map with GoType keys (a Go
map[reflect.Type]string read). -/
def lookupT : List (GoType × String) → GoType → Option String
  | [], _ => none
  | (t, k) :: rest, n => if t = n then some k else lookupT rest n

/-- Schema.types from config.go, with the Go panic on a non-bijective
schema modelled as the .error branch (the code aborts the program with
this message instead of returning an error).  The schema map is embedded
as an association list with distinct keys; the inverse map is built in
iteration order. -/
def typesRun : List (String × GoType) → List (GoType × String) →
    Except String (List (GoType × String))
  | [], acc => .ok acc
  | (k, zero) :: rest, acc =>
    let typ := collapse zero
    if (lookupT acc typ).isSome then .error "infra.Schema: bindings not bijective"
    else typesRun rest (acc ++ [(typ, k)])

/-! ### Go string helpers

The Go code uses strings.SplitN, strings.Split, strings.TrimRightFunc
and strings.TrimRight.  They are embedded here as operations on
character lists with String wrappers. -/

/-- The part of a character list before the first separator, together
with the part after it (none when the separator does not occur).  This is
strings.SplitN(s, sep, 2): the result is [h] or [h, t]. -/
def splitHead (sep : Char) : List Char → List Char × Option (List Char)
  | [] => ([], none)
  | c :: rest =>
    if c == sep then ([], some rest)
    else
      let p := splitHead sep rest
      (c :: p.1, p.2)

/-- strings.Split on a character list: split at every separator.  The
result is always nonempty. -/
def splitAll (sep : Char) : List Char → List (List Char)
  | [] => [[]]
  | c :: rest =>
    match splitAll sep rest with
    | [] => [[c]]
    | h :: t => if c == sep then [] :: h :: t else (c :: h) :: t

/-- strings.TrimRightFunc: drop the trailing run of characters
satisfying p. -/
def trimRightWhile (p : Char → Bool) (cs : List Char) : List Char :=
  (cs.reverse.dropWhile p).reverse

/-- The package-prefix computation of Config.build in config.go for an
unregistered provider name: strings.TrimRightFunc dropping trailing
non-dot characters, then strings.TrimRight dropping trailing dots. -/
def pkgName (s : String) : String :=
  String.mk (trimRightWhile (fun c => c == '.') (trimRightWhile (fun c => c != '.') s.data))

/-- Whether pat occurs at the start of s. -/
def isPrefixL : List Char → List Char → Bool
  | [], _ => true
  | _ :: _, [] => false
  | a :: as, b :: bs => a == b && isPrefixL as bs

/-- Whether pat occurs anywhere in s. -/
def containsL (pat : List Char) : List Char → Bool
  | [] => isPrefixL pat []
  | c :: rest => isPrefixL pat (c :: rest) || containsL pat rest

/-- Whether the string pat occurs as a substring of s. -/
def containsStr (s pat : String) : Bool :=
  containsL pat.data s.data

/-! ### Provider-name validation -/

/-- Characters allowed in a registered provider name: ASCII lowercase
letters, digits, and the punctuation set `-_/.`. -/
def nameChar (c : Char) : Bool :=
  (('a' ≤ c && c ≤ 'z') || ('0' ≤ c && c ≤ '9')
    || c == '-' || c == '_' || c == '/' || c == '.')

/-- Modelled from the spec: the provider-name validation performed by
Register (provider.go is not part of the sources; only its tests are).
Per the data model a name is ASCII lowercase letters, digits, and `-_/.`,
has at least one character, and must not start with a digit. -/
def validName (s : String) : Bool :=
  match s.data with
  | [] => false
  | c :: rest => nameChar c && !('0' ≤ c && c ≤ '9') && rest.all nameChar

/-- Modelled from the spec: Register validates the name and aborts the
program on an invalid one; the abort is modelled as the .error branch. -/
def Register (name : String) : Except String Unit :=
  if validName name then .ok () else .error ("infra.Register: invalid name: " ++ name)

/-! ### The Setup pass of Config.Setup

Config.Setup (config.go) walks the topologically sorted instance order;
it skips an instance whose recorded version is already current, otherwise
invokes its Setup and records the new version, aborting the pass on
failure.  An instance is abstracted here by its registered name, its
declared version and the outcome its Setup would produce when invoked
during this pass (none = success). -/

/-- An instance as seen by the version bookkeeping of Config.Setup. -/
structure SInst where
  impl : String
  version : Int
  setupErr : Option String
deriving DecidableEq, Repr

/-- Reading a Go map[string]int: a missing key reads as 0. -/
def lookupV : List (String × Int) → String → Int
  | [], _ => 0
  | (m, w) :: rest, n => if m = n then w else lookupV rest n

/-- Writing a Go map[string]int entry. -/
def insertV : List (String × Int) → String → Int → List (String × Int)
  | [], n, v => [(n, v)]
  | (m, w) :: rest, n, v =>
    if m = n then (m, v) :: rest else (m, w) :: insertV rest n v

/-- The loop body of Config.Setup: returns the version map as left
behind by the pass (the Go map is mutated in place, so entries advanced
before a failure are retained) together with the error, if any. -/
def setupLoop : List SInst → List (String × Int) → List (String × Int) × Option String
  | [], vs => (vs, none)
  | i :: rest, vs =>
    if lookupV vs i.impl ≥ i.version then setupLoop rest vs
    else
      match i.setupErr with
      | some e => (vs, some ("setup " ++ i.impl ++ ": " ++ e))
      | none => setupLoop rest (insertV vs i.impl i.version)

/-- The versions successfully run for provider n during a Setup pass:
the version of every instance whose Setup was invoked (it was not
version-gated) and succeeded, before the pass ended. -/
def succVersions (n : String) : List SInst → List (String × Int) → List Int
  | [], _ => []
  | i :: rest, vs =>
    if lookupV vs i.impl ≥ i.version then succVersions n rest vs
    else
      match i.setupErr with
      | some _ => []
      | none =>
        (if i.impl = n then [i.version] else []) ++
          succVersions n rest (insertV vs i.impl i.version)

/-! ### Lemmas about the Setup version bookkeeping -/

theorem lookupV_insertV (vs : List (String × Int)) (m n : String) (v : Int) :
    lookupV (insertV vs m v) n = if m = n then v else lookupV vs n := by
  induction vs with
  | nil => simp [insertV, lookupV]
  | cons p rest ih =>
    obtain ⟨a, b⟩ := p
    by_cases hma : a = m
    · subst hma
      by_cases h : a = n <;> simp [insertV, lookupV, h]
    · by_cases han : a = n
      · subst han
        have : ¬m = a := fun hh => hma hh.symm
        simp [insertV, lookupV, hma, this]
      · simp [insertV, lookupV, hma, han, ih]

theorem le_foldl_max (init : Int) (l : List Int) : init ≤ l.foldl max init := by
  induction l generalizing init with
  | nil => simp
  | cons x xs ih => exact le_trans (le_max_left init x) (ih (max init x))

theorem setupLoop_lookup_eq (l : List SInst) (vs : List (String × Int)) (n : String) :
    lookupV (setupLoop l vs).1 n = (succVersions n l vs).foldl max (lookupV vs n) := by
  induction l generalizing vs with
  | nil => simp [setupLoop, succVersions]
  | cons i rest ih =>
    by_cases hskip : lookupV vs i.impl ≥ i.version
    · simp only [setupLoop, succVersions, if_pos hskip]
      exact ih vs
    · cases herr : i.setupErr with
      | some e => simp [setupLoop, succVersions, if_neg hskip, herr]
      | none =>
        simp only [setupLoop, succVersions, if_neg hskip, herr]
        rw [ih (insertV vs i.impl i.version), lookupV_insertV]
        by_cases himpl : i.impl = n
        · subst himpl
          have hlt : lookupV vs i.impl < i.version := lt_of_not_ge hskip
          simp only [if_pos rfl, if_true, List.singleton_append, List.foldl_cons]
          rw [max_eq_right (le_of_lt hlt)]
        · simp [himpl]

theorem succVersions_gt (l : List SInst) (vs : List (String × Int)) (n : String) :
    ∀ v ∈ succVersions n l vs, lookupV vs n < v := by
  induction l generalizing vs with
  | nil => simp [succVersions]
  | cons i rest ih =>
    by_cases hskip : lookupV vs i.impl ≥ i.version
    · simpa only [succVersions, if_pos hskip] using ih vs
    · cases herr : i.setupErr with
      | some e => simp [succVersions, if_neg hskip, herr]
      | none =>
        simp only [succVersions, if_neg hskip, herr, List.mem_append]
        intro v hv
        rcases hv with hv | hv
        · by_cases himpl : i.impl = n
          · subst himpl
            simp only [if_pos rfl, if_true, List.mem_singleton] at hv
            subst hv
            exact lt_of_not_ge hskip
          · simp [himpl] at hv
        · have hrec := ih (insertV vs i.impl i.version) v hv
          rw [lookupV_insertV] at hrec
          by_cases himpl : i.impl = n
          · subst himpl
            simp only [if_pos rfl] at hrec
            exact lt_trans (lt_of_not_ge hskip) hrec
          · simpa [himpl] using hrec

/-- C2: For every Config c and every provider name n, c.versions[n] never
decreases across Config.Setup calls: Setup walks the instance order,
invokes an instance's Setup only when versions[Impl()] is below its
Version(), sets versions[Impl()] to Version() only on success, and on a
failure aborts the pass while retaining every version entry advanced
earlier in that pass, so versions[n] equals the greatest Version()
successfully run for n.  Formally, over the embedding of Config.Setup:
the version left for n is the maximum of its initial value and the
versions successfully run for n during the pass (an equation that holds
whether or not the pass aborted, so advances made before a failure are
retained); every successfully run version strictly exceeds the initial
entry (the version gate), so when any ran, the final entry is the
greatest successfully run version; and in particular the entry never
decreases. -/
theorem setup_version_bookkeeping (l : List SInst) (vs : List (String × Int)) (n : String) :
    lookupV vs n ≤ lookupV (setupLoop l vs).1 n ∧
    lookupV (setupLoop l vs).1 n = (succVersions n l vs).foldl max (lookupV vs n) ∧
    (∀ v ∈ succVersions n l vs, lookupV vs n < v) := by
  refine ⟨?_, setupLoop_lookup_eq l vs n, succVersions_gt l vs n⟩
  rw [setupLoop_lookup_eq l vs n]
  exact le_foldl_max _ _

/-- Witness for C2 at a concrete pass: one instance for provider
"testcluster" at version 1 whose Setup succeeds, starting from an empty
version map. -/
theorem setup_version_bookkeeping_witness :
    lookupV [] "testcluster" < 1 :=
  (setup_version_bookkeeping [⟨"testcluster", 1, none⟩] [] "testcluster").2.2 1 (by decide)

/-! ### The type matcher -/

/-- The first embedded (anonymous), externally visible (empty pkgPath)
field whose type is assignable to dst, in declaration order: the
specification-side description of the promotion step of assign. -/
def firstEmbedded (dst : GoType) : List (String × Bool × String × GoType) → Option String
  | [] => none
  | (name, anon, pkgPath, typ) :: rest =>
    if anon && pkgPath == "" && assignableTo typ dst then some name
    else firstEmbedded dst rest

/-- The field list of a struct type; any other type has none. -/
def fieldsOf : GoType → List (String × Bool × String × GoType)
  | .strct _ fs _ => fs
  | _ => []

theorem scanFields_eq_firstEmbedded (dst : GoType)
    (fs : List (String × Bool × String × GoType)) :
    scanFields dst fs =
      match firstEmbedded dst fs with
      | some name => (name, true)
      | none => ("", false) := by
  induction fs with
  | nil => simp [scanFields, firstEmbedded]
  | cons f rest ih =>
    obtain ⟨name, anon, pkgPath, typ⟩ := f
    by_cases hanon : anon
    · by_cases hpkg : pkgPath = ""
      · by_cases hassign : assignableTo typ dst
        · simp [scanFields, firstEmbedded, hanon, hpkg, hassign]
        · simp [scanFields, firstEmbedded, hanon, hpkg, hassign, ih]
      · simp [scanFields, firstEmbedded, hanon, hpkg, ih]
    · simp [scanFields, firstEmbedded, hanon, ih]

/-- C4: For every concrete provider type P and requested slot type S,
assign(P, S) returns ("", true) when P is assignable to S; otherwise,
with P' obtained by stripping all pointer indirections from P, if P' is
a struct having an embedded exported field whose type is assignable to
S, assign returns (F.name, true) for the first such field in declaration
order — only one level of embedding being examined — and otherwise it
returns ("", false). -/
theorem assign_characterization (P S : GoType) :
    assign P S =
      if assignableTo P S then ("", true)
      else
        match firstEmbedded S (fieldsOf (stripPtr P)) with
        | some name => (name, true)
        | none => ("", false) := by
  by_cases h : assignableTo P S
  · simp [assign, h]
  · simp only [assign, if_neg h]
    cases hs : stripPtr P with
    | strct n fs ms => simpa [fieldsOf] using scanFields_eq_firstEmbedded S fs
    | prim n ms => simp [fieldsOf, firstEmbedded]
    | iface ms => simp [fieldsOf, firstEmbedded]
    | ptr t => simp [fieldsOf, firstEmbedded]

/-! ### assignUnique -/

/-- C5: For every source type src and list of candidate slot types,
assignUnique returns the unique matching slot when exactly one candidate
matches src under assign; when zero candidates match it returns an error
whose message contains the word "no", and when more than one matches it
returns an error whose message contains the word "multiple". -/
theorem assignUnique_characterization (src : GoType) (dsts : List GoType) :
    (∀ t, dsts.filter (fun d => (assign src d).2) = [t] →
      assignUnique src dsts = .ok t) ∧
    (dsts.filter (fun d => (assign src d).2) = [] →
      ∃ e, assignUnique src dsts = .error e ∧ containsStr e "no" = true) ∧
    (2 ≤ (dsts.filter (fun d => (assign src d).2)).length →
      ∃ e, assignUnique src dsts = .error e ∧ containsStr e "multiple" = true) := by
  refine ⟨?_, ?_, ?_⟩
  · intro t h
    simp [assignUnique, h]
  · intro h
    refine ⟨"no providers for type " ++ typeName src, ?_, ?_⟩
    · simp [assignUnique, h]
    · have : ("no providers for type " ++ typeName src).data =
        "no providers for type ".data ++ (typeName src).data := String.data_append _ _
      simp only [containsStr, this]
      rfl
  · intro h
    cases hfil : dsts.filter (fun d => (assign src d).2) with
    | nil => rw [hfil] at h; simp at h
    | cons a rest =>
      cases rest with
      | nil => rw [hfil] at h; simp at h
      | cons b rest₂ =>
        refine ⟨"multiple providers for type " ++ typeName src ++ ": " ++
          typeListName (a :: b :: rest₂), ?_, ?_⟩
        · simp [assignUnique, hfil]
        · simp only [containsStr, String.data_append]
          rfl

/-- Witness for C5 at a concrete input: one candidate that matches the
source type directly. -/
theorem assignUnique_characterization_witness :
    assignUnique (.prim "t" []) [.prim "t" []] = .ok (.prim "t" []) :=
  (assignUnique_characterization (.prim "t" []) [.prim "t" []]).1 _ (by decide)

/-! ### Schema bijectivity -/

theorem lookupT_append_some (l₁ l₂ : List (GoType × String)) (t : GoType) (v : String)
    (h : lookupT l₁ t = some v) : lookupT (l₁ ++ l₂) t = some v := by
  induction l₁ with
  | nil => simp [lookupT] at h
  | cons p rest ih =>
    obtain ⟨a, b⟩ := p
    by_cases hat : a = t
    · simp [lookupT, hat] at h ⊢
      exact h
    · simp [lookupT, hat] at h ⊢
      exact ih h

theorem lookupT_append_none (l₁ l₂ : List (GoType × String)) (t : GoType)
    (h : lookupT l₁ t = none) : lookupT (l₁ ++ l₂) t = lookupT l₂ t := by
  induction l₁ with
  | nil => simp [lookupT]
  | cons p rest ih =>
    obtain ⟨a, b⟩ := p
    by_cases hat : a = t
    · simp [lookupT, hat] at h
    · simp [lookupT, hat] at h ⊢
      exact ih h

theorem lookupT_append_self (acc : List (GoType × String)) (t : GoType) (k : String) :
    (lookupT (acc ++ [(t, k)]) t).isSome = true := by
  cases h : lookupT acc t with
  | some v => rw [lookupT_append_some acc [(t, k)] t v h]; rfl
  | none => rw [lookupT_append_none acc [(t, k)] t h]; simp [lookupT]

theorem typesRun_err_of_mem (s : List (String × GoType)) :
    ∀ (acc : List (GoType × String)) (k : String) (z : GoType),
      (k, z) ∈ s → (lookupT acc (collapse z)).isSome = true →
      typesRun s acc = .error "infra.Schema: bindings not bijective" := by
  induction s with
  | nil => intro acc k z hmem; simp at hmem
  | cons p rest ih =>
    intro acc k z hmem hsome
    obtain ⟨k0, z0⟩ := p
    by_cases h0 : (lookupT acc (collapse z0)).isSome
    · simp [typesRun, h0]
    · rcases List.mem_cons.mp hmem with heq | hrest
      · cases heq
        exact absurd hsome h0
      · simp only [typesRun, h0, if_neg, Bool.false_eq_true, not_false_eq_true, if_false]
        refine ih (acc ++ [(collapse z0, k0)]) k z hrest ?_
        cases hl : lookupT acc (collapse z) with
        | some v => rw [lookupT_append_some _ _ _ v hl]; rfl
        | none => rw [hl] at hsome; simp at hsome

theorem typesRun_ok (s : List (String × GoType)) :
    ∀ (acc : List (GoType × String)),
      (∀ p ∈ s, lookupT acc (collapse p.2) = none) →
      s.Pairwise (fun p q => collapse p.2 ≠ collapse q.2) →
      typesRun s acc = .ok (acc ++ s.map fun p => (collapse p.2, p.1)) := by
  induction s with
  | nil => intro acc _ _; simp [typesRun]
  | cons p rest ih =>
    intro acc hfresh hpw
    obtain ⟨k0, z0⟩ := p
    have h0 : lookupT acc (collapse z0) = none := hfresh (k0, z0) (by simp)
    simp only [typesRun, h0, Option.isSome_none, Bool.false_eq_true, if_false]
    rw [ih (acc ++ [(collapse z0, k0)]) ?_ (List.Pairwise.of_cons hpw)]
    · simp
    · intro q hq
      rw [lookupT_append_none _ _ _ (hfresh q (List.mem_cons_of_mem _ hq))]
      have hne : collapse z0 ≠ collapse q.2 := (List.pairwise_cons.mp hpw).1 q hq
      simp [lookupT, hne]

theorem typesRun_err_gen (s : List (String × GoType)) :
    ∀ (acc : List (GoType × String)) (k1 : String) (z1 : GoType) (k2 : String) (z2 : GoType),
      (k1, z1) ∈ s → (k2, z2) ∈ s → k1 ≠ k2 → collapse z1 = collapse z2 →
      typesRun s acc = .error "infra.Schema: bindings not bijective" := by
  induction s with
  | nil => intro acc k1 z1 k2 z2 h1; simp at h1
  | cons p rest ih =>
    intro acc k1 z1 k2 z2 h1 h2 hk hcol
    obtain ⟨k0, z0⟩ := p
    by_cases h0 : (lookupT acc (collapse z0)).isSome
    · simp [typesRun, h0]
    · simp only [typesRun, h0, Bool.false_eq_true, not_false_eq_true, if_false, if_neg]
      rcases List.mem_cons.mp h1 with he1 | hr1
      · cases he1
        rcases List.mem_cons.mp h2 with he2 | hr2
        · cases he2; exact absurd rfl hk
        · refine typesRun_err_of_mem rest _ k2 z2 hr2 ?_
          rw [← hcol]
          exact lookupT_append_self acc (collapse z1) k1
      · rcases List.mem_cons.mp h2 with he2 | hr2
        · cases he2
          refine typesRun_err_of_mem rest _ k1 z1 hr1 ?_
          rw [hcol]
          exact lookupT_append_self acc (collapse z2) k2
        · exact ih _ k1 z1 k2 z2 hr1 hr2 hk hcol

/-- C6: For every Schema in which two distinct keys map to the same slot
type (after collapsing a pointer-to-interface zero value to the pointee
interface type), Schema.types — and hence Schema.Make — aborts the
program with the message "bindings not bijective" rather than returning
an error (the abort is the .error branch of the embedding, distinct from
any value Make would return); for every bijective Schema it returns the
full inverse slot_type → key map. -/
theorem schema_types_bijectivity (s : List (String × GoType)) :
    (∀ k1 z1 k2 z2, (k1, z1) ∈ s → (k2, z2) ∈ s → k1 ≠ k2 →
      collapse z1 = collapse z2 →
      typesRun s [] = .error "infra.Schema: bindings not bijective") ∧
    (s.Pairwise (fun p q => collapse p.2 ≠ collapse q.2) →
      typesRun s [] = .ok (s.map fun p => (collapse p.2, p.1))) := by
  constructor
  · intro k1 z1 k2 z2 h1 h2 hk hcol
    exact typesRun_err_gen s [] k1 z1 k2 z2 h1 h2 hk hcol
  · intro hpw
    simpa using typesRun_ok s [] (by simp [lookupT]) hpw

/-- Witness for C6: a two-key schema mapping both keys (one through a
pointer-to-interface zero value) to the same interface type aborts, and
a two-key bijective schema yields the inverse map. -/
theorem schema_types_bijectivity_witness :
    typesRun [("a", .iface []), ("b", .ptr (.iface []))] [] =
      .error "infra.Schema: bindings not bijective" ∧
    typesRun [("a", .iface []), ("b", .prim "t" [])] [] =
      .ok [(.iface [], "a"), (.prim "t" [], "b")] := by
  constructor
  · exact (schema_types_bijectivity [("a", .iface []), ("b", .ptr (.iface []))]).1
      "a" (.iface []) "b" (.ptr (.iface [])) (by simp) (by simp) (by decide) rfl
  · exact (schema_types_bijectivity [("a", .iface []), ("b", .prim "t" [])]).2
      (by simp [List.pairwise_cons]; decide)

/-! ### Provider-name validation theorems -/

/-- C8 (amended): Register aborts for every name containing an uppercase
letter or a character outside lowercase letters, digits, and `-_/.` — in
particular for "232*772" and "CAPS", and also for the package-qualified
"github.com/x/y.Foo", whose F is uppercase — and accepts "test",
"ec2cluster", and all-lowercase package-qualified forms such as
"github.com/x/y.foo". -/
theorem register_name_validation :
    (∀ name, (∃ c ∈ name.data, nameChar c = false) →
      Register name = .error ("infra.Register: invalid name: " ++ name)) ∧
    Register "232*772" = .error "infra.Register: invalid name: 232*772" ∧
    Register "CAPS" = .error "infra.Register: invalid name: CAPS" ∧
    Register "test" = .ok () ∧
    Register "ec2cluster" = .ok () ∧
    Register "github.com/x/y.foo" = .ok () ∧
    Register "github.com/x/y.Foo" =
      .error "infra.Register: invalid name: github.com/x/y.Foo" := by
  refine ⟨?_, by decide, by decide, by decide, by decide, by decide, by decide⟩
  intro name hbad
  obtain ⟨c, hc, hbadc⟩ := hbad
  have hfalse : validName name = false := by
    unfold validName
    cases hd : name.data with
    | nil => rfl
    | cons c0 rest =>
      rw [hd] at hc
      rcases List.mem_cons.mp hc with he | hr
      · subst he
        simp [hbadc]
      · have hall : rest.all nameChar = false := by
          by_cases hall : rest.all nameChar
          · have := List.all_eq_true.mp hall c hr
            rw [hbadc] at this
            exact absurd this (by simp)
          · simpa using hall
        simp [hall]
  simp [Register, hfalse]

/-- Counterexample for C8 as stated: the claim says Register accepts the
package-qualified form "github.com/x/y.Foo", but the name validation
rejects it (the F is uppercase), so Register aborts on it. -/
theorem register_name_validation_cex :
    Register "github.com/x/y.Foo" =
      .error "infra.Register: invalid name: github.com/x/y.Foo" := by
  decide

/-- Witness for C8 applied at the concrete invalid name "CAPS". -/
theorem register_name_validation_witness :
    Register "CAPS" = .error ("infra.Register: invalid name: " ++ "CAPS") :=
  register_name_validation.1 "CAPS" ⟨'C', by decide, by decide⟩

/-! ### The value universe of Keys trees

Keys values are the Go interface{} values stored in a configuration
tree: scalars, pointers (handles to provider-held state), and the three
map shapes deepcopy in config.go distinguishes (infra.Keys,
map[string]interface{} and map[interface{}]interface{}, the last being
what the YAML codec produces for nested mappings — its keys are strings
in every configuration this package handles). -/

/-- The three providers of the package test suite (part of the sources),
which the engine embedding instantiates: testcreds, testcluster and
testsetup. -/
inductive PName where
  | creds
  | cluster
  | setupP
deriving DecidableEq, Repr

/-- A pointer stored in a Keys tree: a handle to a provider's persisted
Config() state, a handle to its InstanceConfig() state, or some other
caller-held pointer. -/
inductive HRef where
  | config (p : PName)
  | instCfg (p : PName)
  | ext (n : Nat)
deriving DecidableEq, Repr

/-- A Go value held in a Keys tree. -/
inductive GVal where
  | str (s : String)
  | int (n : Int)
  | bool (b : Bool)
  | ptr (r : HRef)
  | keys (m : List (String × GVal))
  | smap (m : List (String × GVal))
  | imap (m : List (String × GVal))

mutual

def GVal.decEq : (a b : GVal) → Decidable (a = b)
  | .str s, .str s₂ =>
    if h : s = s₂ then isTrue (by rw [h]) else isFalse (by intro hh; cases hh; exact h rfl)
  | .int n, .int n₂ =>
    if h : n = n₂ then isTrue (by rw [h]) else isFalse (by intro hh; cases hh; exact h rfl)
  | .bool b, .bool b₂ =>
    if h : b = b₂ then isTrue (by rw [h]) else isFalse (by intro hh; cases hh; exact h rfl)
  | .ptr r, .ptr r₂ =>
    if h : r = r₂ then isTrue (by rw [h]) else isFalse (by intro hh; cases hh; exact h rfl)
  | .keys m, .keys m₂ =>
    match gvalListDecEq m m₂ with
    | isTrue h => isTrue (by rw [h])
    | isFalse h => isFalse (by intro hh; cases hh; exact h rfl)
  | .smap m, .smap m₂ =>
    match gvalListDecEq m m₂ with
    | isTrue h => isTrue (by rw [h])
    | isFalse h => isFalse (by intro hh; cases hh; exact h rfl)
  | .imap m, .imap m₂ =>
    match gvalListDecEq m m₂ with
    | isTrue h => isTrue (by rw [h])
    | isFalse h => isFalse (by intro hh; cases hh; exact h rfl)
  | .str _, .int _ => isFalse (fun h => GVal.noConfusion h)
  | .str _, .bool _ => isFalse (fun h => GVal.noConfusion h)
  | .str _, .ptr _ => isFalse (fun h => GVal.noConfusion h)
  | .str _, .keys _ => isFalse (fun h => GVal.noConfusion h)
  | .str _, .smap _ => isFalse (fun h => GVal.noConfusion h)
  | .str _, .imap _ => isFalse (fun h => GVal.noConfusion h)
  | .int _, .str _ => isFalse (fun h => GVal.noConfusion h)
  | .int _, .bool _ => isFalse (fun h => GVal.noConfusion h)
  | .int _, .ptr _ => isFalse (fun h => GVal.noConfusion h)
  | .int _, .keys _ => isFalse (fun h => GVal.noConfusion h)
  | .int _, .smap _ => isFalse (fun h => GVal.noConfusion h)
  | .int _, .imap _ => isFalse (fun h => GVal.noConfusion h)
  | .bool _, .str _ => isFalse (fun h => GVal.noConfusion h)
  | .bool _, .int _ => isFalse (fun h => GVal.noConfusion h)
  | .bool _, .ptr _ => isFalse (fun h => GVal.noConfusion h)
  | .bool _, .keys _ => isFalse (fun h => GVal.noConfusion h)
  | .bool _, .smap _ => isFalse (fun h => GVal.noConfusion h)
  | .bool _, .imap _ => isFalse (fun h => GVal.noConfusion h)
  | .ptr _, .str _ => isFalse (fun h => GVal.noConfusion h)
  | .ptr _, .int _ => isFalse (fun h => GVal.noConfusion h)
  | .ptr _, .bool _ => isFalse (fun h => GVal.noConfusion h)
  | .ptr _, .keys _ => isFalse (fun h => GVal.noConfusion h)
  | .ptr _, .smap _ => isFalse (fun h => GVal.noConfusion h)
  | .ptr _, .imap _ => isFalse (fun h => GVal.noConfusion h)
  | .keys _, .str _ => isFalse (fun h => GVal.noConfusion h)
  | .keys _, .int _ => isFalse (fun h => GVal.noConfusion h)
  | .keys _, .bool _ => isFalse (fun h => GVal.noConfusion h)
  | .keys _, .ptr _ => isFalse (fun h => GVal.noConfusion h)
  | .keys _, .smap _ => isFalse (fun h => GVal.noConfusion h)
  | .keys _, .imap _ => isFalse (fun h => GVal.noConfusion h)
  | .smap _, .str _ => isFalse (fun h => GVal.noConfusion h)
  | .smap _, .int _ => isFalse (fun h => GVal.noConfusion h)
  | .smap _, .bool _ => isFalse (fun h => GVal.noConfusion h)
  | .smap _, .ptr _ => isFalse (fun h => GVal.noConfusion h)
  | .smap _, .keys _ => isFalse (fun h => GVal.noConfusion h)
  | .smap _, .imap _ => isFalse (fun h => GVal.noConfusion h)
  | .imap _, .str _ => isFalse (fun h => GVal.noConfusion h)
  | .imap _, .int _ => isFalse (fun h => GVal.noConfusion h)
  | .imap _, .bool _ => isFalse (fun h => GVal.noConfusion h)
  | .imap _, .ptr _ => isFalse (fun h => GVal.noConfusion h)
  | .imap _, .keys _ => isFalse (fun h => GVal.noConfusion h)
  | .imap _, .smap _ => isFalse (fun h => GVal.noConfusion h)

def gvalListDecEq : (a b : List (String × GVal)) → Decidable (a = b)
  | [], [] => isTrue rfl
  | [], _ :: _ => isFalse (by intro h; cases h)
  | _ :: _, [] => isFalse (by intro h; cases h)
  | (k, v) :: rest, (k₂, v₂) :: rest₂ =>
    if h1 : k = k₂ then
      match GVal.decEq v v₂ with
      | isTrue h2 =>
        match gvalListDecEq rest rest₂ with
        | isTrue h3 => isTrue (by rw [h1, h2, h3])
        | isFalse h3 => isFalse (by intro hh; cases hh; exact h3 rfl)
      | isFalse h2 => isFalse (by intro hh; cases hh; exact h2 rfl)
    else isFalse (by intro h; cases h; exact h1 rfl)

end

instance : DecidableEq GVal := GVal.decEq

mutual

/-- deepcopy from config.go: the three map cases allocate fresh maps and
recurse over the entries; every other value — scalars and pointers —
falls to the default case and is returned as the identical value. -/
def deepcopy : GVal → GVal
  | .keys m => .keys (deepcopyL m)
  | .smap m => .smap (deepcopyL m)
  | .imap m => .imap (deepcopyL m)
  | v => v

/-- The entry recursion of deepcopy over one map. -/
def deepcopyL : List (String × GVal) → List (String × GVal)
  | [] => []
  | (k, v) :: rest => (k, deepcopy v) :: deepcopyL rest

end

mutual

/-- Reading a tree through a heap for the pointer leaves: every ptr leaf
is replaced by the value the heap currently holds for it.  Applying this
with the heap as it stands after a mutation shows what a consumer of the
tree (such as the YAML marshaller) observes at that time. -/
def resolveRefs (h : HRef → GVal) : GVal → GVal
  | .str s => .str s
  | .int n => .int n
  | .bool b => .bool b
  | .ptr r => h r
  | .keys m => .keys (resolveRefsL h m)
  | .smap m => .smap (resolveRefsL h m)
  | .imap m => .imap (resolveRefsL h m)

def resolveRefsL (h : HRef → GVal) : List (String × GVal) → List (String × GVal)
  | [] => []
  | (k, v) :: rest => (k, resolveRefs h v) :: resolveRefsL h rest

end

mutual

theorem deepcopy_eq : (v : GVal) → deepcopy v = v
  | .str _ => rfl
  | .int _ => rfl
  | .bool _ => rfl
  | .ptr _ => rfl
  | .keys m => by rw [deepcopy, deepcopyL_eq m]
  | .smap m => by rw [deepcopy, deepcopyL_eq m]
  | .imap m => by rw [deepcopy, deepcopyL_eq m]

theorem deepcopyL_eq : (m : List (String × GVal)) → deepcopyL m = m
  | [] => rfl
  | (k, v) :: rest => by rw [deepcopyL, deepcopy_eq v, deepcopyL_eq rest]

end

/-- C9: For every Keys tree k, Keys.Clone (deepcopy) returns a tree
structurally equal to k whose map nodes are rebuilt but whose leaves —
scalars and, notably, pointers such as provider Config() and
InstanceConfig() handles — are the identical values shared with k.  In
the embedding this is the statement that the clone equals the original
tree, and consequently that for every heap state h — in particular the
heap after a mutation made through such a pointer after cloning — the
clone resolves to the same observed tree as the original, which is what
Config.Marshal(true) relies on when it clones Keys before forcing Init
on the instances with instance configs. -/
theorem keys_clone_shares_leaves (k : List (String × GVal)) (h : HRef → GVal) :
    deepcopy (.keys k) = .keys k ∧
    resolveRefs h (deepcopy (.keys k)) = resolveRefs h (.keys k) := by
  refine ⟨deepcopy_eq _, ?_⟩
  rw [deepcopy_eq]

/-! ### Association-list operations modelling Go map reads and writes -/

/-- Reading a string-keyed Go map. -/
def getA {β : Type} : List (String × β) → String → Option β
  | [], _ => none
  | (k, v) :: rest, n => if k = n then some v else getA rest n

/-- Writing a string-keyed Go map entry (replace or add). -/
def setA {β : Type} : List (String × β) → String → β → List (String × β)
  | [], n, v => [(n, v)]
  | (k, w) :: rest, n, v =>
    if k = n then (k, v) :: rest else (k, w) :: setA rest n v

/-- Deleting a string-keyed Go map entry. -/
def delA {β : Type} : List (String × β) → String → List (String × β)
  | [], _ => []
  | (k, w) :: rest, n =>
    if k = n then delA rest n else (k, w) :: delA rest n

/-- Reading a Go map keyed by reflect.Type. -/
def getT {β : Type} : List (GoType × β) → GoType → Option β
  | [], _ => none
  | (t, v) :: rest, n => if t = n then some v else getT rest n

/-- Reading a map keyed by a provider. -/
def getP {β : Type} : List (PName × β) → PName → Option β
  | [], _ => none
  | (p, v) :: rest, n => if p = n then some v else getP rest n

/-- Writing a map keyed by a provider (replace or add). -/
def setP {β : Type} : List (PName × β) → PName → β → List (PName × β)
  | [], n, v => [(n, v)]
  | (p, w) :: rest, n, v =>
    if p = n then (p, v) :: rest else (p, w) :: setP rest n v

/-! ### The embedded providers

The provider implementations are transcribed from the package test
sources (testCreds, testCluster with its clusterInstance, and testSetup);
the per-provider metadata an instance reports (Impl, Version, Config,
InstanceConfig, RequiresInit, RequiresSetup, Flags) is modelled from the
spec, since provider.go itself is not among the sources. -/

/-- The testCluster provider state: the four YAML-visible fields plus
the two yaml:"-" fields and its clusterInstance (whose User field
marshals as instance_user). -/
structure TestClusterS where
  user : String
  instanceType : String
  numInstances : Int
  setupUser : String
  fromInstance : Bool
  instUser : String
deriving DecidableEq, Repr

/-- The live states of the three providers in one Config. -/
structure PStates where
  creds : String
  cluster : TestClusterS
  setupDone : Bool
deriving DecidableEq, Repr

def zeroCluster : TestClusterS := ⟨"", "", 0, "", false, ""⟩

def zeroStates : PStates := ⟨"", zeroCluster, false⟩

/-- The value a typed lookup returns for an instance. -/
inductive PVal where
  | credsV (s : String)
  | clusterV (c : TestClusterS)
  | setupV (b : Bool)
deriving DecidableEq, Repr

def credsT : GoType := .ptr (.prim "infra_test.testCreds" [])
def clusterT : GoType := .ptr (.prim "infra_test.testCluster" [])
def setupT : GoType := .ptr (.prim "infra_test.testSetup" [])

/-- The registrations performed by the test suite init function:
Register("testcreds", ...), Register("testcluster", ...),
Register("testsetup", ...). -/
def registry : List (String × PName) :=
  [("testcreds", .creds), ("testcluster", .cluster), ("testsetup", .setupP)]

/-- Impl(): the registered name of a provider. -/
def implName : PName → String
  | .creds => "testcreds"
  | .cluster => "testcluster"
  | .setupP => "testsetup"

/-- Type(): the concrete type of a provider. -/
def provType : PName → GoType
  | .creds => credsT
  | .cluster => clusterT
  | .setupP => setupT

/-- RequiresInit(): parameter types of the provider Init capability
(testCluster has Init(creds *testCreds)). -/
def requiresInit : PName → List GoType
  | .cluster => [credsT]
  | _ => []

/-- RequiresSetup(): parameter types of the provider Setup capability
(testCluster has Setup(creds *testCreds)). -/
def requiresSetup : PName → List GoType
  | .cluster => [credsT]
  | _ => []

/-- Version(): 1 for testCluster and testSetup, 0 for testCreds, which
declares none. -/
def provVersion : PName → Int
  | .creds => 0
  | _ => 1

/-- Whether Config() returns a non-nil handle (all three do). -/
def hasConfig : PName → Bool := fun _ => true

/-- Whether InstanceConfig() returns a non-nil handle (only
testCluster). -/
def hasInstanceConfig : PName → Bool
  | .cluster => true
  | _ => false

/-- p.New: a fresh zero value of the provider type. -/
def resetState (p : PName) (st : PStates) : PStates :=
  match p with
  | .creds => { st with creds := "" }
  | .cluster => { st with cluster := zeroCluster }
  | .setupP => { st with setupDone := false }

/-- The flag sets registered by the providers: testCreds registers a
"user" string flag writing through to its own value; the others register
none, so any flag name fails as in flag.FlagSet.Set. -/
def setFlag (p : PName) (k v : String) (st : PStates) : Except String PStates :=
  match p with
  | .creds => if k = "user" then .ok { st with creds := v } else .error ("no such flag -" ++ k)
  | _ => .error ("no such flag -" ++ k)

/-- One field read of a YAML unmarshal into a struct: an absent key
leaves the current value, a present key must hold a string. -/
def readStrField (m : List (String × GVal)) (k cur : String) : Except String String :=
  match getA m k with
  | none => .ok cur
  | some (.str s) => .ok s
  | some _ => .error "yaml: cannot unmarshal"

def readIntField (m : List (String × GVal)) (k : String) (cur : Int) : Except String Int :=
  match getA m k with
  | none => .ok cur
  | some (.int n) => .ok n
  | some _ => .error "yaml: cannot unmarshal"

/-- remarshal(src, inst.Config()): re-serialize the persisted payload
into the provider's Config() value.  testCreds is a string; testCluster
exposes instance_type, num_instances, setup_user (its other fields are
yaml:"-"); testSetup is a bool. -/
def remarshalInto (p : PName) (src : GVal) (st : PStates) : Except String PStates :=
  match p with
  | .creds =>
    match src with
    | .str s => .ok { st with creds := s }
    | _ => .error "yaml: cannot unmarshal"
  | .cluster =>
    match src with
    | .imap m => do
      let it ← readStrField m "instance_type" st.cluster.instanceType
      let ni ← readIntField m "num_instances" st.cluster.numInstances
      let su ← readStrField m "setup_user" st.cluster.setupUser
      .ok { st with cluster :=
        { st.cluster with instanceType := it, numInstances := ni, setupUser := su } }
    | _ => .error "yaml: cannot unmarshal"
  | .setupP =>
    match src with
    | .bool b => .ok { st with setupDone := b }
    | _ => .error "yaml: cannot unmarshal"

/-- remarshal(src, inst.InstanceConfig()): only testCluster has an
instance config, a clusterInstance whose single field marshals as
instance_user. -/
def remarshalInstInto (p : PName) (src : GVal) (st : PStates) : Except String PStates :=
  match p with
  | .cluster =>
    match src with
    | .imap m => do
      let u ← readStrField m "instance_user" st.cluster.instUser
      .ok { st with cluster := { st.cluster with instUser := u } }
    | _ => .error "yaml: cannot unmarshal"
  | _ => .ok st

/-- The testCluster Init body (from the test sources): FromInstance is
whether the instance config carries a user; User comes from there or
from the creds dependency; the instance config user is then set to
User.  testCreds Init is a no-op and testSetup has no Init capability. -/
def clusterInit (st : PStates) : PStates :=
  let fi := st.cluster.instUser != ""
  let u := if fi then st.cluster.instUser else st.creds
  { st with cluster := { st.cluster with fromInstance := fi, user := u, instUser := u } }

def applyInit (p : PName) (st : PStates) : Except String PStates :=
  match p with
  | .creds => .ok st
  | .cluster => .ok (clusterInit st)
  | .setupP => .ok st

/-- The testCluster Setup body: fails with "no user specified" when the
creds user is empty, otherwise records the cloud-side state in its
Config() value. -/
def clusterSetup (st : PStates) : Except String PStates :=
  if st.creds = "" then .error "no user specified"
  else .ok { st with cluster :=
    { st.cluster with instanceType := "xxx", numInstances := 123, setupUser := st.creds } }

/-- The testSetup Setup body: records that setup ran. -/
def setupPSetup (st : PStates) : PStates :=
  { st with setupDone := true }

/-- The memoized initialization state of an instance (modelled from the
spec: pristine, done, or failed with a cached error). -/
inductive InitState where
  | pristine
  | done
  | failed (msg : String)
deriving DecidableEq, Repr

/-- The assembled Config: the Keys tree, the schema and its inverse
types map, the configured instances by slot type, the topologically
sorted order, the version map, the provider states and the per-instance
init memo. -/
structure MConfig where
  keys : List (String × GVal)
  types : List (GoType × String)
  typeset : List GoType
  insts : List (GoType × PName)
  order : List PName
  versions : List (String × Int)
  states : PStates
  inits : List (PName × InitState)
deriving DecidableEq

/-- instance.Init, modelled from the spec: memoized; resolves and
initializes every RequiresInit dependency first, then runs the provider
Init capability and stores the result.  The fuel argument only bounds
recursion depth; the registry dependency graph is two levels deep. -/
def runInit : Nat → MConfig → PName → Except String MConfig
  | 0, _, _ => .error "infra: init cycle"
  | fuel + 1, c, p =>
    match (getP c.inits p).getD .pristine with
    | .done => .ok c
    | .failed m => .error m
    | .pristine =>
      match (requiresInit p).foldlM
        (fun (c : MConfig) t =>
          match assignUnique t c.typeset with
          | .error e => Except.error e
          | .ok slot =>
            match getT c.insts slot with
            | none => Except.error ("no provider for type " ++ typeName t)
            | some d => runInit fuel c d) c with
      | .error e => .error e
      | .ok c2 =>
        match applyInit p c2.states with
        | .ok st =>
          .ok { c2 with states := st, inits := setP c2.inits p .done }
        | .error m => .error m

/-- Config.Instance from config.go: resolve the requested type to a
unique slot, find the configured instance (an unconfigured slot is "no
provider for type"), force Init, and return the instance value. -/
def instanceOf (c : MConfig) (rt : GoType) : Except String (PVal × MConfig) :=
  match assignUnique rt c.typeset with
  | .error e => .error e
  | .ok slot =>
    match getT c.insts slot with
    | none => .error ("no provider for type " ++ typeName rt)
    | some p =>
      match runInit 4 c p with
      | .error e => .error e
      | .ok c2 =>
        .ok ((match p with
          | .creds => .credsV c2.states.creds
          | .cluster => .clusterV c2.states.cluster
          | .setupP => .setupV c2.states.setupDone), c2)

/-! ### Config.build and Schema.Make -/

/-- The state threaded through the per-key loop of Config.build. -/
structure BuildSt where
  keys : List (String × GVal)
  icfgs : List (String × GVal)
  insts : List (GoType × PName)
  states : PStates

/-- c.args(key) from config.go: the comma-separated argument tail of the
selector string — strings.Split(args, ",")[1:], nil when the string is
empty. -/
def argsOf (args : String) : List String :=
  if args = "" then []
  else ((splitAll ',' args.data).map fun cs => String.mk cs).drop 1

/-- The flag-application loop of Config.build: each argument k or k=v is
fed to the instance flag set, errors wrapped with provider and flag
name. -/
def applyFlags (p : PName) (impl : String) : List String → PStates → Except String PStates
  | [], st => .ok st
  | arg :: rest, st =>
    let kv := splitHead '=' arg.data
    let k := String.mk kv.1
    match kv.2 with
    | none =>
      match setFlag p k "" st with
      | .error e => .error ("provider " ++ impl ++ " flag " ++ k ++ ": " ++ e)
      | .ok st2 => applyFlags p impl rest st2
    | some v =>
      match setFlag p k (String.mk v) st with
      | .error e => .error ("provider " ++ impl ++ " flag " ++ k ++ ": " ++ e)
      | .ok st2 => applyFlags p impl rest st2

/-- One iteration of the loop of Config.build over (slot type, key): read
the selector, look up the provider (an absent key or empty name is
skipped; an unknown nonempty name fails with the package question),
type-check it against the slot, instantiate it, apply flags, restore the
persisted Config() payload into the handle and store the handle in Keys,
likewise for the InstanceConfig() payload, and record the instance. -/
def buildEntry (b : BuildSt) (typ : GoType) (key : String) : Except String BuildSt :=
  match getA b.keys key with
  | none => .ok b
  | some (.str args) =>
    let impl := String.mk (splitHead ',' args.data).1
    match getA registry impl with
    | none =>
      if impl = "" then .ok b
      else .error (key ++ ": no provider named " ++ impl ++
        " (is package " ++ pkgName impl ++ " linked into the binary?)")
    | some p =>
      match assign (provType p) typ with
      | (_, false) =>
        .error ("provider implements type " ++ typeName (provType p) ++
          ", which is incompatible to the bound type " ++ typeName typ)
      | (_, true) =>
        match applyFlags p impl (argsOf args) (resetState p b.states) with
        | .error e => .error e
        | .ok st1 =>
          match (match getA b.keys impl with
            | some src => if hasConfig p then remarshalInto p src st1 else .ok st1
            | none => .ok st1) with
          | .error e => .error e
          | .ok st2 =>
            let keys1 := if hasConfig p then setA b.keys impl (.ptr (.config p)) else b.keys
            match (match getA b.icfgs impl with
              | some src => if hasInstanceConfig p then remarshalInstInto p src st2 else .ok st2
              | none => .ok st2) with
            | .error e => .error e
            | .ok st3 =>
              let icfgs1 :=
                if hasInstanceConfig p then setA b.icfgs impl (.ptr (.instCfg p)) else b.icfgs
              .ok ⟨keys1, icfgs1, b.insts ++ [(typ, p)], st3⟩
  | some _ => .error "key has wrong type"

/-- The per-key loop of Config.build over the inverse types map. -/
def buildFold : List (GoType × String) → BuildSt → Except String BuildSt
  | [], b => .ok b
  | (typ, key) :: rest, b =>
    match buildEntry b typ key with
    | .error e => .error e
    | .ok b2 => buildFold rest b2

/-- The dependency edges of one instance: every RequiresInit and
RequiresSetup type resolved through assignUnique to a slot and then to
the owning instance (a missing owning instance contributes a node-only
edge, as graph.Add(src, nil) does). -/
def depsOf (insts : List (GoType × PName)) (typeset : List GoType) (p : PName) :
    Except String (List PName) :=
  (requiresInit p ++ requiresSetup p).foldlM
    (fun acc t =>
      match assignUnique t typeset with
      | .error e => Except.error e
      | .ok slot =>
        match getT insts slot with
        | none => Except.ok acc
        | some d => Except.ok (acc ++ [d])) []

/-- Modelled from the spec: the topological sorter — depth-first; a
node's dependencies are emitted before the node; an already-emitted node
is not revisited.  The cycle check of build is not modelled because the
embedded registry's dependency graph (cluster depends on creds) is a
fixed DAG. -/
def dfsVisit : Nat → List (PName × List PName) → PName → List PName → List PName
  | 0, _, _, acc => acc
  | fuel + 1, g, p, acc =>
    if acc.contains p then acc
    else (((getP g p).getD []).foldl (fun acc d => dfsVisit fuel g d acc) acc) ++ [p]

/-- The instance order Config.build stores: build the dependency graph
over the configured instances and sort it. -/
def mkOrder (insts : List (GoType × PName)) (typeset : List GoType) :
    Except String (List PName) :=
  match insts.foldlM
    (fun (g : List (PName × List PName)) e =>
      match depsOf insts typeset e.2 with
      | .error err => Except.error err
      | .ok ds => Except.ok (g ++ [(e.2, ds)])) [] with
  | .error e => .error e
  | .ok g => .ok (g.foldl (fun acc e => dfsVisit 4 g e.1 acc) [])

/-- Reading the persisted versions subtree: a mapping of ints. -/
def readVersions : List (String × GVal) → Except String (List (String × Int))
  | [] => .ok []
  | (k, .int n) :: rest =>
    match readVersions rest with
    | .error e => .error e
    | .ok vs => .ok ((k, n) :: vs)
  | (_, _) :: _ => .error "yaml: cannot unmarshal versions"

/-- Schema.Make from config.go over the embedded test registry: compute
the inverse types map (a panic on a non-bijective schema is modelled as
an error tagged panic:), restore the versions subtree if present,
snapshot the instances subtree (Keys.Keys returns wrong-type unless the
value is the codec-produced mapping shape), run the build loop, write
the instances subtree back, and store the sorted order. -/
def makeC (schema : List (String × GoType)) (keys : List (String × GVal)) :
    Except String MConfig :=
  match typesRun schema [] with
  | .error e => .error ("panic: " ++ e)
  | .ok types =>
    let typeset := types.map Prod.fst
    match (match getA keys "versions" with
      | none => Except.ok []
      | some (.imap m) => readVersions m
      | some _ => Except.error "yaml: cannot unmarshal versions") with
    | .error e => .error e
    | .ok versions =>
      match (match getA keys "instances" with
        | none => Except.ok []
        | some (.imap m) => Except.ok m
        | some _ => Except.error "key has wrong type") with
      | .error e => .error e
      | .ok icfgs0 =>
        match buildFold types ⟨keys, icfgs0, [], zeroStates⟩ with
        | .error e => .error e
        | .ok b =>
          let keys2 := setA b.keys "instances" (.keys b.icfgs)
          match mkOrder b.insts typeset with
          | .error e => .error e
          | .ok order =>
            .ok ⟨keys2, types, typeset, b.insts, order, versions, b.states, []⟩

/-! ### Marshal -/

/-- Lexicographic order on strings, used by the YAML codec when it emits
a mapping. -/
def charListLe : List Char → List Char → Bool
  | [], _ => true
  | _ :: _, [] => false
  | a :: as, b :: bs => if a = b then charListLe as bs else decide (a < b)

def strLe (s t : String) : Bool := charListLe s.data t.data

def insEntry (e : String × GVal) : List (String × GVal) → List (String × GVal)
  | [] => [e]
  | f :: rest => if strLe e.1 f.1 then e :: f :: rest else f :: insEntry e rest

/-- The key-sorted emission order of a mapping. -/
def sortEntries : List (String × GVal) → List (String × GVal)
  | [] => []
  | e :: rest => insEntry e (sortEntries rest)

/-- What the YAML codec emits for a provider Config() handle at marshal
time: the provider state as it stands then. -/
def renderRef (st : PStates) : HRef → GVal
  | .config .creds => .str st.creds
  | .config .cluster => .imap
      [("instance_type", .str st.cluster.instanceType),
       ("num_instances", .int st.cluster.numInstances),
       ("setup_user", .str st.cluster.setupUser)]
  | .config .setupP => .bool st.setupDone
  | .instCfg .cluster => .imap [("instance_user", .str st.cluster.instUser)]
  | .instCfg p => .ptr (.instCfg p)
  | .ext n => .ptr (.ext n)

mutual

/-- Marshalling a Keys tree through the YAML codec: handles are read
through to the provider state they point at, mappings are emitted with
sorted keys; re-parsing yields the codec mapping shape (imap). -/
def render (st : PStates) : GVal → GVal
  | .str s => .str s
  | .int n => .int n
  | .bool b => .bool b
  | .ptr r => renderRef st r
  | .keys m => .imap (sortEntries (renderL st m))
  | .smap m => .imap (sortEntries (renderL st m))
  | .imap m => .imap (sortEntries (renderL st m))

def renderL (st : PStates) : List (String × GVal) → List (String × GVal)
  | [] => []
  | (k, v) :: rest => (k, render st v) :: renderL st rest

end

/-- The init-forcing loop of Config.Marshal(true): initialize every
ordered instance that has an instance config. -/
def marshInit : List PName → MConfig → Except String MConfig
  | [], c => .ok c
  | p :: rest, c =>
    if hasInstanceConfig p then
      match runInit 4 c p with
      | .error e => .error e
      | .ok c2 => marshInit rest c2
    else marshInit rest c

/-- Config.Marshal from config.go: clone Keys (sharing the handles),
overlay the versions map, then either force Init on instances with
instance configs (instances=true) or delete the instances subtree, and
emit the tree through the codec. -/
def marshalC (instances : Bool) (c : MConfig) : Except String (GVal × MConfig) :=
  match deepcopy (.keys c.keys) with
  | .keys cloned =>
    let keys := setA cloned "versions" (.imap (c.versions.map fun e => (e.1, .int e.2)))
    if instances then
      match marshInit c.order c with
      | .error e => .error e
      | .ok c2 => .ok (render c2.states (.keys keys), c2)
    else
      .ok (render c.states (.keys (delA keys "instances")), c)
  | _ => .error "unreachable"

/-- Schema.Unmarshal from config.go: decode the buffer into a Keys tree
(the codec yields a string-keyed mapping at top level) and delegate to
Make. -/
def unmarshalC (schema : List (String × GoType)) (t : GVal) : Except String MConfig :=
  match t with
  | .imap m => makeC schema m
  | _ => .error "yaml: cannot unmarshal"

/-! ### Setup -/

/-- instance.Setup, modelled from the spec: invoke the provider's
optional setup capability (testCreds has none; testCluster may fail;
testSetup records itself). -/
def setupEntry (p : PName) (c : MConfig) : Except String MConfig :=
  match p with
  | .creds => .ok c
  | .cluster =>
    match clusterSetup c.states with
    | .error e => .error e
    | .ok st => .ok { c with states := st }
  | .setupP => .ok { c with states := setupPSetup c.states }

/-- Config.Setup from config.go instantiated with the embedded
providers: walk the order, skip an instance whose recorded version is
current, otherwise run its Setup; on success advance the version, on
failure return "setup name: err" keeping the versions advanced so far. -/
def setupC : List PName → MConfig → MConfig × Option String
  | [], c => (c, none)
  | p :: rest, c =>
    if lookupV c.versions (implName p) ≥ provVersion p then setupC rest c
    else
      match setupEntry p c with
      | .error e => (c, some ("setup " ++ implName p ++ ": " ++ e))
      | .ok c2 => setupC rest { c2 with versions := insertV c2.versions (implName p) (provVersion p) }

/-- The test schema from the test sources: creds, cluster, setup. -/
def testSchema : List (String × GoType) :=
  [("creds", credsT), ("cluster", clusterT), ("setup", setupT)]

/-! ### The TestSetup scenario (C3) -/

/-- The first TestSetup configuration: creds without a user. -/
def s1Keys : List (String × GVal) :=
  [("creds", .str "testcreds"), ("cluster", .str "testcluster"), ("setup", .str "testsetup")]

/-- The reconfigured TestSetup configuration: creds with user=xyz. -/
def s2Keys : List (String × GVal) :=
  [("creds", .str "testcreds,user=xyz"), ("cluster", .str "testcluster"),
   ("setup", .str "testsetup")]

/-- Make then Setup on the first configuration; the Setup error. -/
def c3Run1 : Option String :=
  match makeC testSchema s1Keys with
  | .ok c => (setupC c.order c).2
  | .error e => some e

/-- Make, Setup, then Marshal(false) on the reconfigured configuration:
the Setup error (if any) and the marshaled tree. -/
def c3Run2 : Option String × Option GVal :=
  match makeC testSchema s2Keys with
  | .ok c =>
    let (c2, err) := setupC c.order c
    match marshalC false c2 with
    | .ok (t, _) => (err, some t)
    | .error e => (some e, none)
  | .error e => (some e, none)

/-- The Config built from the reconfigured TestSetup keys. -/
def cfgS2 : MConfig :=
  ⟨[("creds", .str "testcreds,user=xyz"), ("cluster", .str "testcluster"),
    ("setup", .str "testsetup"), ("testcreds", .ptr (.config .creds)),
    ("testcluster", .ptr (.config .cluster)), ("testsetup", .ptr (.config .setupP)),
    ("instances", .keys [("testcluster", .ptr (.instCfg .cluster))])],
   [(credsT, "creds"), (clusterT, "cluster"), (setupT, "setup")],
   [credsT, clusterT, setupT],
   [(credsT, .creds), (clusterT, .cluster), (setupT, .setupP)],
   [.creds, .cluster, .setupP],
   [],
   ⟨"xyz", zeroCluster, false⟩,
   []⟩

/-- cfgS2 after the Setup pass ran the cluster and setup actions. -/
def cfgS3 : MConfig :=
  { cfgS2 with
    versions := [("testcluster", 1), ("testsetup", 1)],
    states := ⟨"xyz", ⟨"", "xxx", 123, "xyz", false, ""⟩, true⟩ }

/-- The tree Marshal(false) emits for cfgS3. -/
def treeS3 : GVal :=
  .imap
    [("cluster", .str "testcluster"),
     ("creds", .str "testcreds,user=xyz"),
     ("setup", .str "testsetup"),
     ("testcluster", .imap
       [("instance_type", .str "xxx"),
        ("num_instances", .int 123),
        ("setup_user", .str "xyz")]),
     ("testcreds", .str "xyz"),
     ("testsetup", .bool true),
     ("versions", .imap [("testcluster", .int 1), ("testsetup", .int 1)])]

set_option maxHeartbeats 1000000 in
theorem c3_stage_make : makeC testSchema s2Keys = .ok cfgS2 := by decide

set_option maxHeartbeats 1000000 in
theorem c3_stage_setup : setupC [.creds, .cluster, .setupP] cfgS2 = (cfgS3, none) := by decide

set_option maxHeartbeats 1000000 in
theorem c3_stage_marshal : marshalC false cfgS3 = .ok (treeS3, cfgS3) := by decide

set_option maxHeartbeats 1000000 in
/-- C3, evaluated at the failing input: for the configuration
{creds: "testcreds", cluster: "testcluster", setup: "testsetup"} under
the test schema, Setup returns exactly "setup testcluster: no user
specified"; after reconfiguring creds as "testcreds,user=xyz", Setup
succeeds and the marshaled form matches the repository test except in
the version map: the code leaves versions = {testcluster: 1,
testsetup: 1} with no testcreds entry, because Setup skips testcreds
(versions["testcreds"] = 0 is not below its Version() = 0) without ever
writing the entry, while TestSetup in the test sources expects
{testcluster: 1, testcreds: 0, testsetup: 1}. -/
theorem setup_scenario_versions :
    c3Run1 = some "setup testcluster: no user specified" ∧
    c3Run2 = (none, some treeS3) ∧
    getA [("testcluster", GVal.int 1), ("testsetup", GVal.int 1)] "testcreds" = none := by
  refine ⟨by decide, ?_, by decide⟩
  have horder : cfgS2.order = [PName.creds, PName.cluster, PName.setupP] := rfl
  simp only [c3Run2, c3_stage_make, horder, c3_stage_setup, c3_stage_marshal]

/-! ### The Marshal(true) round trip (C1) -/

/-- The TestInstanceConfig-style configuration with a persisted creds
user u. -/
def c1Keys (u : String) : List (String × GVal) :=
  [("creds", .str "testcreds"), ("cluster", .str "testcluster"), ("testcreds", .str u)]

/-- The round trip of C1: Make, Marshal(true), Unmarshal with the same
schema, then the typed lookups of both configs for the creds and cluster
slots (the lookups on the original run against the config as Marshal
left it, which is what the Go caller holds, since instance state is
shared). -/
def c1Pipe (u : String) : Except String (PVal × PVal × PVal × PVal) := do
  let c0 ← makeC testSchema (c1Keys u)
  let tc ← marshalC true c0
  let c2 ← unmarshalC testSchema tc.1
  let a1 ← instanceOf tc.2 credsT
  let b1 ← instanceOf a1.2 clusterT
  let a2 ← instanceOf c2 credsT
  let b2 ← instanceOf a2.2 clusterT
  .ok (a1.1, b1.1, a2.1, b2.1)

/-- The Config built from c1Keys u. -/
def c1Cfg0 (u : String) : MConfig :=
  ⟨[("creds", .str "testcreds"), ("cluster", .str "testcluster"),
    ("testcreds", .ptr (.config .creds)),
    ("testcluster", .ptr (.config .cluster)),
    ("instances", .keys [("testcluster", .ptr (.instCfg .cluster))])],
   [(credsT, "creds"), (clusterT, "cluster"), (setupT, "setup")],
   [credsT, clusterT, setupT],
   [(credsT, .creds), (clusterT, .cluster)],
   [.creds, .cluster],
   [],
   ⟨u, zeroCluster, false⟩,
   []⟩

/-- The tree Marshal(true) emits for c1Cfg0 u. -/
def c1Tree (u : String) : GVal :=
  .imap
    [("cluster", .str "testcluster"),
     ("creds", .str "testcreds"),
     ("instances", .imap [("testcluster", .imap [("instance_user", .str u)])]),
     ("testcluster", .imap
       [("instance_type", .str ""), ("num_instances", .int 0), ("setup_user", .str "")]),
     ("testcreds", .str u),
     ("versions", .imap [])]

/-- c1Cfg0 u after Marshal(true) forced Init on the cluster instance. -/
def c1Cfg1 (u : String) : MConfig :=
  { c1Cfg0 u with
    states := ⟨u, ⟨u, "", 0, "", false, u⟩, false⟩,
    inits := [(.creds, .done), (.cluster, .done)] }

/-- The Config rebuilt from the marshaled tree c1Tree u. -/
def c1Cfg2 (u : String) : MConfig :=
  ⟨[("cluster", .str "testcluster"), ("creds", .str "testcreds"),
    ("instances", .keys [("testcluster", .ptr (.instCfg .cluster))]),
    ("testcluster", .ptr (.config .cluster)),
    ("testcreds", .ptr (.config .creds)),
    ("versions", .imap [])],
   [(credsT, "creds"), (clusterT, "cluster"), (setupT, "setup")],
   [credsT, clusterT, setupT],
   [(credsT, .creds), (clusterT, .cluster)],
   [.creds, .cluster],
   [],
   ⟨u, ⟨"", "", 0, "", false, u⟩, false⟩,
   []⟩

/-- c1Cfg2 u after the creds lookup initialized creds. -/
def c1Cfg2b (u : String) : MConfig :=
  { c1Cfg2 u with inits := [(.creds, .done)] }

/-- The cluster value the rebuilt Config computes at Init: FromInstance
is whether the restored instance user is nonempty. -/
def c1ClusterAfter (u : String) : TestClusterS :=
  ⟨if (u != "") = true then u else u, "", 0, "", u != "",
   if (u != "") = true then u else u⟩

/-- c1Cfg2b u after the cluster lookup initialized the cluster. -/
def c1Cfg2c (u : String) : MConfig :=
  { c1Cfg2b u with
    states := ⟨u, c1ClusterAfter u, false⟩,
    inits := [(.creds, .done), (.cluster, .done)] }

set_option maxHeartbeats 1000000 in
theorem c1_stage_make (u : String) : makeC testSchema (c1Keys u) = .ok (c1Cfg0 u) := rfl

set_option maxHeartbeats 1000000 in
theorem c1_stage_marshal (u : String) :
    marshalC true (c1Cfg0 u) = .ok (c1Tree u, c1Cfg1 u) := rfl

set_option maxHeartbeats 1000000 in
theorem c1_stage_unmarshal (u : String) :
    unmarshalC testSchema (c1Tree u) = .ok (c1Cfg2 u) := rfl

set_option maxHeartbeats 1000000 in
theorem c1_stage_lookup1 (u : String) :
    instanceOf (c1Cfg1 u) credsT = .ok (.credsV u, c1Cfg1 u) := rfl

set_option maxHeartbeats 1000000 in
theorem c1_stage_lookup2 (u : String) :
    instanceOf (c1Cfg1 u) clusterT =
      .ok (.clusterV ⟨u, "", 0, "", false, u⟩, c1Cfg1 u) := rfl

set_option maxHeartbeats 1000000 in
theorem c1_stage_lookup3 (u : String) :
    instanceOf (c1Cfg2 u) credsT = .ok (.credsV u, c1Cfg2b u) := rfl

set_option maxHeartbeats 1000000 in
theorem c1_stage_lookup4 (u : String) :
    instanceOf (c1Cfg2b u) clusterT =
      .ok (.clusterV (c1ClusterAfter u), c1Cfg2c u) := rfl

theorem exceptBind_ok {α β : Type} (a : α) (f : α → Except String β) :
    (Except.ok a >>= f) = f a := rfl

/-- The round trip evaluated symbolically in the persisted user u. -/
theorem c1Pipe_eval (u : String) :
    c1Pipe u = .ok (.credsV u, .clusterV ⟨u, "", 0, "", false, u⟩,
      .credsV u, .clusterV (c1ClusterAfter u)) := by
  simp only [c1Pipe, c1_stage_make, exceptBind_ok, c1_stage_marshal, c1_stage_unmarshal,
    c1_stage_lookup1, c1_stage_lookup2, c1_stage_lookup3, c1_stage_lookup4]

/-- Counterexample for C1 as stated: at the concrete configuration with
user "testuser", the round trip succeeds but the typed lookup of the
cluster slot stores FromInstance = false in the original and
FromInstance = true in the restored config — the values are not
equal. -/
theorem roundtrip_cex :
    c1Pipe "testuser" = .ok (.credsV "testuser",
      .clusterV ⟨"testuser", "", 0, "", false, "testuser"⟩,
      .credsV "testuser",
      .clusterV ⟨"testuser", "", 0, "", true, "testuser"⟩) ∧
    PVal.clusterV ⟨"testuser", "", 0, "", false, "testuser"⟩ ≠
      PVal.clusterV ⟨"testuser", "", 0, "", true, "testuser"⟩ := by
  refine ⟨?_, by decide⟩
  rw [c1Pipe_eval "testuser"]
  decide

/-- C1 (amended): for every Config built by Schema.Make from the test
schema with a persisted nonempty creds user u, unmarshalling
Marshal(true) with the same schema succeeds, and the typed lookups of
the restored Config store values equal to the original ones except for
the fields the provider Init derives from the restored instance state:
the creds values agree, and the cluster values agree on every field
except FromInstance, which is false in the original and true in the
restored Config. -/
theorem roundtrip_amended (u : String) (h : u ≠ "") :
    c1Pipe u = .ok (.credsV u, .clusterV ⟨u, "", 0, "", false, u⟩,
      .credsV u, .clusterV ⟨u, "", 0, "", true, u⟩) := by
  have hb : (u != "") = true := bne_iff_ne.mpr h
  rw [c1Pipe_eval u]
  simp [c1ClusterAfter, hb]

/-- Witness for C1 (amended) at the concrete user "abc". -/
theorem roundtrip_amended_witness :
    c1Pipe "abc" = .ok (.credsV "abc", .clusterV ⟨"abc", "", 0, "", false, "abc"⟩,
      .credsV "abc", .clusterV ⟨"abc", "", 0, "", true, "abc"⟩) :=
  roundtrip_amended "abc" (by decide)

/-! ### Unknown providers and skipped keys (C7) -/

theorem splitHead_not_mem (c : Char) (cs : List Char) (h : c ∉ cs) :
    splitHead c cs = (cs, none) := by
  induction cs with
  | nil => rfl
  | cons a rest ih =>
    have hac : ¬(a == c) = true := by
      simp only [beq_iff_eq]
      intro hh
      exact h (hh ▸ List.mem_cons_self a rest)
    have hrest : c ∉ rest := fun hm => h (List.mem_cons_of_mem a hm)
    simp [splitHead, hac, ih hrest]

theorem stringMk_data (s : String) : String.mk s.data = s := rfl

/-- The inverse types map of the test schema. -/
theorem testSchema_types :
    typesRun testSchema [] =
      .ok [(credsT, "creds"), (clusterT, "cluster"), (setupT, "setup")] := by decide

/-- The Config Schema.Make builds from an empty Keys map: every schema
key is skipped and no instance is configured. -/
def c7Empty : MConfig :=
  ⟨[("instances", .keys [])],
   [(credsT, "creds"), (clusterT, "cluster"), (setupT, "setup")],
   [credsT, clusterT, setupT],
   [], [], [], zeroStates, []⟩

theorem dropWhile_append_all {p : Char → Bool} (xs ys : List Char)
    (h : ∀ x ∈ xs, p x = true) :
    (xs ++ ys).dropWhile p = ys.dropWhile p := by
  induction xs with
  | nil => rfl
  | cons a rest ih =>
    have ha : p a = true := h a (List.mem_cons_self a rest)
    simp only [List.cons_append, List.dropWhile_cons, ha, if_true]
    exact ih (fun x hx => h x (List.mem_cons_of_mem a hx))

/-- The claim-side reading of the package prefix: the provider name
truncated at its last dot. -/
def truncAtLastDot (s : String) : String :=
  String.mk (((s.data.reverse.dropWhile (fun c => c != '.')).drop 1).reverse)

/-- C7 (amended): a schema key whose Keys entry names a provider absent
from the registry makes Schema.Make fail with an error that names the
provider name and the package prefix computed by stripping the trailing
run of non-dot characters and then the trailing dots, asking whether
that package is linked into the binary; for names of the usual shape
prefix.Type — a dot-free nonempty suffix after a prefix not itself
ending in a dot — that prefix is exactly the name truncated at its last
dot (e.g. xyz/pkg for xyz/pkg.Missing); and a schema key with no Keys
entry is skipped without error during build, failing only at a later
typed lookup with "no provider for type". -/
theorem unknown_provider_and_skip :
    (∀ name : String, getA registry name = none → ',' ∉ name.data → name ≠ "" →
      makeC testSchema [("creds", .str name)] =
        .error ("creds: no provider named " ++ name ++
          " (is package " ++ pkgName name ++ " linked into the binary?)")) ∧
    (∀ a b : String, (∀ ch ∈ b.data, ch ≠ '.') → b ≠ "" →
      a.data.reverse.head? ≠ some '.' →
      pkgName (a ++ "." ++ b) = a) ∧
    makeC testSchema [] = .ok c7Empty ∧
    instanceOf c7Empty clusterT = .error "no provider for type *infra_test.testCluster" := by
  refine ⟨?_, ?_, by decide, by decide⟩
  · intro name h1 h2 h3
    have hsplit : splitHead ',' name.data = (name.data, none) := splitHead_not_mem ',' name.data h2
    have hreg : (if "testcreds" = name then some PName.creds
        else if "testcluster" = name then some PName.cluster
        else if "testsetup" = name then some PName.setupP else none) = none := by
      simpa [registry, getA] using h1
    simp [makeC, testSchema_types, getA, buildFold, buildEntry, hsplit, stringMk_data,
      registry, hreg, h3]
  · intro a b hb hb0 ha
    have hdata : (a ++ "." ++ b).data = (a.data ++ ['.']) ++ b.data := by
      simp [String.data_append]
    have hrev : ((a.data ++ ['.']) ++ b.data).reverse =
        b.data.reverse ++ ('.' :: a.data.reverse) := by
      simp [List.reverse_append]
    have hall : ∀ x ∈ b.data.reverse, (x != '.') = true := by
      intro x hx
      exact bne_iff_ne.mpr (hb x (List.mem_reverse.mp hx))
    have hdrop1 : (b.data.reverse ++ ('.' :: a.data.reverse)).dropWhile (fun c => c != '.') =
        '.' :: a.data.reverse := by
      rw [dropWhile_append_all _ _ hall]
      simp [List.dropWhile_cons]
    have hdrop2 : (a.data.reverse).dropWhile (fun c => c == '.') = a.data.reverse := by
      cases hh : a.data.reverse with
      | nil => rfl
      | cons x t =>
        have : x ≠ '.' := by
          intro hx
          exact ha (by rw [hh, hx]; rfl)
        simp [List.dropWhile_cons, this]
    have hrev2 : (a.data ++ ['.']).reverse = '.' :: a.data.reverse := by
      simp
    show String.mk _ = a
    rw [hdata]
    unfold trimRightWhile
    rw [hrev, hdrop1]
    simp only [List.reverse_cons, List.reverse_reverse, List.reverse_singleton,
      List.singleton_append, hrev2, List.dropWhile_cons, beq_self_eq_true, if_true, hdrop2]

/-- Counterexample for C7 as stated: for the unregistered name "x..y"
the error message names the package "x", while the name truncated at its
last dot is "x." — the claimed prefix computation does not match the
code on names with consecutive dots. -/
theorem unknown_provider_cex :
    makeC testSchema [("creds", .str "x..y")] =
      .error "creds: no provider named x..y (is package x linked into the binary?)" ∧
    truncAtLastDot "x..y" = "x." ∧
    pkgName "x..y" = "x" ∧
    ("x" : String) ≠ "x." := by
  refine ⟨by decide, by decide, by decide, by decide⟩

/-- Witness for C7 at the spec example name "xyz/pkg.Missing". -/
theorem unknown_provider_and_skip_witness :
    makeC testSchema [("creds", .str "xyz/pkg.Missing")] =
      .error ("creds: no provider named " ++ "xyz/pkg.Missing" ++
        " (is package " ++ pkgName "xyz/pkg.Missing" ++ " linked into the binary?)") ∧
    pkgName ("xyz/pkg" ++ "." ++ "Missing") = "xyz/pkg" := by
  constructor
  · exact unknown_provider_and_skip.1 "xyz/pkg.Missing" (by decide) (by decide) (by decide)
  · exact unknown_provider_and_skip.2.1 "xyz/pkg" "Missing" (by decide) (by decide) (by decide)

/-! ### Make mutates the caller Keys map in place (C10) -/

/-- The Config Schema.Make builds when the caller also supplies an
unrelated extra entry (n, v): the caller entries are retained, the
provider config handles and the instances subtree are added. -/
def c10Extra (n : String) (v : GVal) : MConfig :=
  ⟨[("creds", .str "testcreds,user=xyz"), ("cluster", .str "testcluster"),
    ("setup", .str "testsetup"), (n, v), ("testcreds", .ptr (.config .creds)),
    ("testcluster", .ptr (.config .cluster)), ("testsetup", .ptr (.config .setupP)),
    ("instances", .keys [("testcluster", .ptr (.instCfg .cluster))])],
   [(credsT, "creds"), (clusterT, "cluster"), (setupT, "setup")],
   [credsT, clusterT, setupT],
   [(credsT, .creds), (clusterT, .cluster), (setupT, .setupP)],
   [.creds, .cluster, .setupP],
   [],
   ⟨"xyz", zeroCluster, false⟩,
   []⟩

/-- C10 (amended): Schema.Make works on the caller-supplied Keys map in
place: after a successful Make, that same map contains an "instances"
entry (created empty when absent and populated with the instance-config
handles), and, for every configured provider whose Config() handle is
non-nil, an entry under the provider's registered name holding that
handle; every other caller-supplied entry — including the schema-key
selector entries — is left unchanged, unless its key coincides with a
configured provider's registered name or with "instances", in which case
it is overwritten by the handle (see the counterexample). -/
theorem make_mutates_keys (n : String) (v : GVal)
    (h1 : n ≠ "creds") (h2 : n ≠ "cluster") (h3 : n ≠ "setup")
    (h4 : n ≠ "instances") (h5 : n ≠ "versions") (h6 : n ≠ "testcreds")
    (h7 : n ≠ "testcluster") (h8 : n ≠ "testsetup") :
    makeC testSchema (s2Keys ++ [(n, v)]) = .ok (c10Extra n v) ∧
    getA (c10Extra n v).keys n = some v ∧
    getA (c10Extra n v).keys "creds" = some (.str "testcreds,user=xyz") ∧
    getA (c10Extra n v).keys "cluster" = some (.str "testcluster") ∧
    getA (c10Extra n v).keys "setup" = some (.str "testsetup") ∧
    getA (c10Extra n v).keys "instances" =
      some (.keys [("testcluster", .ptr (.instCfg .cluster))]) ∧
    getA (c10Extra n v).keys "testcreds" = some (.ptr (.config .creds)) ∧
    getA (c10Extra n v).keys "testcluster" = some (.ptr (.config .cluster)) ∧
    getA (c10Extra n v).keys "testsetup" = some (.ptr (.config .setupP)) := by
  refine ⟨?_, ?_, ?_, ?_, ?_, ?_, ?_, ?_, ?_⟩
  · simp [makeC, typesRun, collapse, lookupT, s2Keys, getA, setA, buildFold, buildEntry,
      argsOf, splitAll, splitHead, applyFlags, setFlag, remarshalInto, remarshalInstInto,
      registry, resetState, hasConfig, hasInstanceConfig, provType, mkOrder, depsOf,
      dfsVisit, getT, getP, assignUnique, assign, assignableTo, stripPtr, typeName,
      requiresInit, requiresSetup, implName, testSchema, credsT, clusterT, setupT,
      zeroStates, zeroCluster, c10Extra, List.foldlM, List.foldl, readVersions,
      pure, Except.pure, bind, Except.bind,
      h1, h2, h3, h4, h5, h6, h7, h8,
      Ne.symm h1, Ne.symm h2, Ne.symm h3, Ne.symm h4, Ne.symm h5, Ne.symm h6,
      Ne.symm h7, Ne.symm h8]
  all_goals
    simp [c10Extra, getA, Ne.symm h1, Ne.symm h2, Ne.symm h3, Ne.symm h6, Ne.symm h7,
      Ne.symm h8, h6, h7, h8, h4]

/-- Witness for C10 at the concrete extra entry ("color", "blue"). -/
theorem make_mutates_keys_witness :
    makeC testSchema (s2Keys ++ [("color", .str "blue")]) =
      .ok (c10Extra "color" (.str "blue")) ∧
    getA (c10Extra "color" (.str "blue")).keys "color" = some (.str "blue") :=
  let h := make_mutates_keys "color" (.str "blue") (by decide) (by decide) (by decide)
    (by decide) (by decide) (by decide) (by decide) (by decide)
  ⟨h.1, h.2.1⟩

/-- The Config Schema.Make builds for a schema whose single key
"testcreds" collides with the registered name of the provider it
selects. -/
def c10Coll : MConfig :=
  ⟨[("testcreds", .ptr (.config .creds)), ("instances", .keys [])],
   [(credsT, "testcreds")],
   [credsT],
   [(credsT, .creds)],
   [.creds],
   [],
   ⟨"testcreds", zeroCluster, false⟩,
   []⟩

set_option maxHeartbeats 1000000 in
/-- Counterexample for C10 as stated: when a schema key coincides with
the registered provider name ("testcreds"), Make succeeds but the
caller's entry at that schema key — the selector string "testcreds" —
is overwritten with the provider's Config() handle, so the schema-key
entry is not left unchanged. -/
theorem make_mutates_keys_cex :
    makeC [("testcreds", credsT)] [("testcreds", .str "testcreds")] = .ok c10Coll ∧
    getA c10Coll.keys "testcreds" = some (.ptr (.config .creds)) ∧
    some (GVal.ptr (.config .creds)) ≠ some (GVal.str "testcreds") := by
  refine ⟨by decide, by decide, by decide⟩

end Infra

